import Mathlib

/-!
Verification of the NoteApp note-taking program (src/NoteApp.py).

The Python data model is shallowly embedded:

* `datetime` values are records of their seven fields (year … microsecond),
  compared as Python compares them (field order; here via an order-preserving
  key), rendered and parsed in the ISO-8601 text form produced by
  `datetime.isoformat` / accepted back by `datetime.fromisoformat`;
* Python `str` is Lean `String` (a sequence of code points); slicing
  `s[:n]` is taking the first `n` code points;
* raising `ValueError` is returning `Except.error`;
* the JSON dictionaries produced by `to_dict` / consumed by `from_dict`
  are records of their string fields.
-/

namespace NoteApp

/-! ## The embedded program and its data model -/

/-- Embedding of a Python `datetime.datetime` value: the record of its
seven components. -/
structure DT where
  year : Nat
  month : Nat
  day : Nat
  hour : Nat
  minute : Nat
  second : Nat
  microsecond : Nat
deriving DecidableEq

/-- Field ranges of a Python `datetime` (day bound relaxed to 31 for every
month, so every Python-valid datetime is valid here). -/
def validDT (d : DT) : Prop :=
  1 ≤ d.year ∧ d.year ≤ 9999 ∧ 1 ≤ d.month ∧ d.month ≤ 12 ∧
  1 ≤ d.day ∧ d.day ≤ 31 ∧ d.hour ≤ 23 ∧ d.minute ≤ 59 ∧
  d.second ≤ 59 ∧ d.microsecond ≤ 999999

instance (d : DT) : Decidable (validDT d) := by
  unfold validDT; infer_instance

/-- Order-preserving flattening of a datetime's fields; each radix strictly
exceeds the field's maximum, so on `validDT` values `dtKey` orders datetimes
exactly as Python's field-by-field comparison does. -/
def dtKey (d : DT) : Nat :=
  ((((((d.year * 13 + d.month) * 32 + d.day) * 24 + d.hour) * 60 +
      d.minute) * 60 + d.second) * 1000000) + d.microsecond

/-- `a <= b` on datetimes. -/
def dtLe (a b : DT) : Prop := dtKey a ≤ dtKey b

instance (a b : DT) : Decidable (dtLe a b) := by
  unfold dtLe; infer_instance

def digitChar (d : Nat) : Char := Char.ofNat (48 + d)

def digitVal (c : Char) : Nat := c.toNat - 48

def isDig (c : Char) : Bool := 48 ≤ c.toNat && c.toNat ≤ 57

/-- Zero-padded two-digit rendering (`%02d`). -/
def pad2 (n : Nat) : List Char := [digitChar (n / 10), digitChar (n % 10)]

/-- Zero-padded four-digit rendering (`%04d`). -/
def pad4 (n : Nat) : List Char :=
  [digitChar (n / 1000), digitChar (n / 100 % 10), digitChar (n / 10 % 10), digitChar (n % 10)]

/-- Zero-padded six-digit rendering (`%06d`). -/
def pad6 (n : Nat) : List Char :=
  [digitChar (n / 100000), digitChar (n / 10000 % 10), digitChar (n / 1000 % 10),
   digitChar (n / 100 % 10), digitChar (n / 10 % 10), digitChar (n % 10)]

def parse2 : List Char → Option (Nat × List Char)
  | a :: b :: r =>
    if isDig a && isDig b then some (10 * digitVal a + digitVal b, r) else none
  | _ => none

def parse4 : List Char → Option (Nat × List Char)
  | a :: b :: c :: d :: r =>
    if isDig a && isDig b && isDig c && isDig d then
      some (1000 * digitVal a + 100 * digitVal b + 10 * digitVal c + digitVal d, r)
    else none
  | _ => none

def parse6 : List Char → Option (Nat × List Char)
  | a :: b :: c :: d :: e :: f :: r =>
    if isDig a && isDig b && isDig c && isDig d && isDig e && isDig f then
      some (100000 * digitVal a + 10000 * digitVal b + 1000 * digitVal c +
            100 * digitVal d + 10 * digitVal e + digitVal f, r)
    else none
  | _ => none

def expectC (c : Char) : List Char → Option (List Char)
  | x :: r => if x = c then some r else none
  | [] => none

/-- `datetime.isoformat()` : `YYYY-MM-DDTHH:MM:SS`, with `.ffffff` appended
exactly when the microsecond field is nonzero. -/
def isoChars (d : DT) : List Char :=
  pad4 d.year ++ '-' :: (pad2 d.month ++ '-' :: (pad2 d.day ++ 'T' ::
    (pad2 d.hour ++ ':' :: (pad2 d.minute ++ ':' :: (pad2 d.second ++
      (if d.microsecond = 0 then [] else '.' :: pad6 d.microsecond))))))

def isoformat (d : DT) : String := ⟨isoChars d⟩

/-- The optional fractional-seconds suffix of the ISO form. -/
def parseFrac : List Char → Option Nat
  | [] => some 0
  | '.' :: r =>
    match parse6 r with
    | some (us, []) => some us
    | _ => none
  | _ => none

/-- `datetime.fromisoformat` on the grammar `datetime.isoformat` emits;
out-of-range fields are rejected (Python raises `ValueError`). -/
def parseISO (cs : List Char) : Option DT :=
  (parse4 cs).bind fun yr =>
  (expectC '-' yr.2).bind fun r2 =>
  (parse2 r2).bind fun mor =>
  (expectC '-' mor.2).bind fun r4 =>
  (parse2 r4).bind fun dyr =>
  (expectC 'T' dyr.2).bind fun r6 =>
  (parse2 r6).bind fun hr =>
  (expectC ':' hr.2).bind fun r8 =>
  (parse2 r8).bind fun mir =>
  (expectC ':' mir.2).bind fun r10 =>
  (parse2 r10).bind fun sr =>
  (parseFrac sr.2).bind fun us =>
  let d : DT := ⟨yr.1, mor.1, dyr.1, hr.1, mir.1, sr.1, us⟩
  if validDT d then some d else none

def fromisoformat (s : String) : Option DT := parseISO s.data

/-- The `NoteCategory` enumeration of src/NoteApp.py. -/
inductive NoteCategory where
  | work
  | home
  | health
  | people
  | documents
  | finance
  | misc
deriving DecidableEq

/-- The `.value` label string of each `NoteCategory` member. -/
def NoteCategory.value : NoteCategory → String
  | .work => "Работа"
  | .home => "Дом"
  | .health => "Здоровье и Спорт"
  | .people => "Люди"
  | .documents => "Документы"
  | .finance => "Финансы"
  | .misc => "Разное"

/-- The value-to-member lookup `NoteCategory(label)`; `none` models the
`ValueError` Python raises on an unknown label. -/
def categoryOfLabel (s : String) : Option NoteCategory :=
  if s = "Работа" then some .work
  else if s = "Дом" then some .home
  else if s = "Здоровье и Спорт" then some .health
  else if s = "Люди" then some .people
  else if s = "Документы" then some .documents
  else if s = "Финансы" then some .finance
  else if s = "Разное" then some .misc
  else none

/-- Python string slicing `s[:n]`: the first `n` code points of `s`. -/
def pytake (s : String) (n : Nat) : String := ⟨s.data.take n⟩

/-- An in-memory `Note` object: its five attributes. -/
structure NoteV where
  title : String
  category : NoteCategory
  content : String
  created_at : DT
  updated_at : DT
deriving DecidableEq

/-- `Note.__init__(title, category, content)`, run at clock time `now`
(`datetime.now()`): the title is truncated to 50 characters, and
`created_at = updated_at = now`. -/
def mkNote (title : String) (category : NoteCategory) (content : String)
    (now : DT) : NoteV :=
  { title := pytake title 50
    category := category
    content := content
    created_at := now
    updated_at := now }

/-- `Note.update(title, category, content)`, run at clock time `now`.
A `None` argument is `none`; `if title:` / `if content:` are false for
`None` and for the empty string, while a `NoteCategory` member is always
truthy. -/
def NoteV.update (n : NoteV) (title : Option String) (category : Option NoteCategory)
    (content : Option String) (now : DT) : NoteV :=
  let n1 := match title with
    | some t => if t ≠ "" then { n with title := pytake t 50 } else n
    | none => n
  let n2 := match category with
    | some c => { n1 with category := c }
    | none => n1
  let n3 := match content with
    | some c => if c ≠ "" then { n2 with content := c } else n2
    | none => n2
  { n3 with updated_at := now }

/-- The dictionary produced by `Note.to_dict` / consumed by
`Note.from_dict`, i.e. one element of the `"notes"` array of the
persisted JSON file. -/
structure NoteDict where
  title : String
  category : String
  content : String
  created_at : String
  updated_at : String
deriving DecidableEq

/-- `Note.to_dict()`. -/
def NoteV.to_dict (n : NoteV) : NoteDict :=
  { title := n.title
    category := n.category.value
    content := n.content
    created_at := isoformat n.created_at
    updated_at := isoformat n.updated_at }

/-- `Note.from_dict(data)`.  `NoteCategory(data["category"])` is looked up
first (it is an argument of the constructor call), then the constructor
runs — its `datetime.now()` timestamps are immediately overwritten by the
two `fromisoformat` results, so the constructor's clock value is
irrelevant and `cdt` is passed for it.  Each failing step is the
`ValueError` Python raises there. -/
def NoteV.from_dict (d : NoteDict) : Except String NoteV :=
  match categoryOfLabel d.category with
  | none => .error (d.category ++ " is not a valid NoteCategory")
  | some cat =>
    match fromisoformat d.created_at with
    | none => .error ("Invalid isoformat string: " ++ d.created_at)
    | some cdt =>
      match fromisoformat d.updated_at with
      | none => .error ("Invalid isoformat string: " ++ d.updated_at)
      | some udt =>
        .ok { mkNote d.title cat d.content cdt with created_at := cdt, updated_at := udt }

/-- An in-memory `Project`: the ordered list of its notes. -/
structure ProjectV where
  notes : List NoteV
deriving DecidableEq

/-- `Project.__init__`: the empty note list. -/
def ProjectV.empty : ProjectV := ⟨[]⟩

/-- `Project.add_note(note)`: append at the end. -/
def ProjectV.add_note (p : ProjectV) (n : NoteV) : ProjectV := ⟨p.notes ++ [n]⟩

/-- `Project.remove_note_by_index(index)`: `del notes[index]` guarded by
`0 <= index < len(notes)`; the index is a Python `int`, so it may be
negative. -/
def ProjectV.remove_note_by_index (p : ProjectV) (index : Int) : ProjectV :=
  if 0 ≤ index ∧ index < (p.notes.length : Int) then
    ⟨p.notes.eraseIdx index.toNat⟩
  else p

/-- The dictionary produced by `Project.to_dict`: the whole persisted
JSON document `{"notes": [...]}`. -/
structure ProjectDict where
  notes : List NoteDict
deriving DecidableEq

/-- `Project.to_dict()`. -/
def ProjectV.to_dict (p : ProjectV) : ProjectDict :=
  ⟨p.notes.map NoteV.to_dict⟩

/-- The Python list comprehension `[f(x) for x in l]` where `f` may raise:
elements are processed left to right and the first exception propagates. -/
def mapExcept (f : α → Except String β) : List α → Except String (List β)
  | [] => .ok []
  | a :: l =>
    match f a with
    | .error e => .error e
    | .ok b =>
      match mapExcept f l with
      | .error e => .error e
      | .ok bs => .ok (b :: bs)

/-- `Project.from_dict(data)`. -/
def ProjectV.from_dict (d : ProjectDict) : Except String ProjectV :=
  match mapExcept NoteV.from_dict d.notes with
  | .error e => .error e
  | .ok ns => .ok ⟨ns⟩

/-- The state of the persisted file as `load_project` observes it:
`none` when `os.path.exists` is false; otherwise the outcome of
`json.load` on the file — `Except.error` when the JSON is malformed
(`json.load` raises), `Except.ok` with the parsed document otherwise. -/
def FileState := Option (Except String ProjectDict)

/-- `ProjectManager.load_project()` over the observed file state. -/
def load_project (fs : FileState) : Except String ProjectV :=
  match fs with
  | none => .ok ProjectV.empty
  | some (.error e) => .error e
  | some (.ok d) => ProjectV.from_dict d

/-- A valid in-memory note: title within the 50-character bound (every note
the program builds satisfies this) and timestamps in `datetime`'s ranges. -/
def validNote (n : NoteV) : Prop :=
  n.title.length ≤ 50 ∧ validDT n.created_at ∧ validDT n.updated_at

instance (n : NoteV) : Decidable (validNote n) := by
  unfold validNote; infer_instance

def validProject (p : ProjectV) : Prop := ∀ n ∈ p.notes, validNote n

instance (p : ProjectV) : Decidable (validProject p) := by
  unfold validProject; exact List.decidableBAll _ _

/-- A timestamp string in the canonical form `datetime.isoformat` writes. -/
def tsCanon (s : String) : Prop := ∃ d, validDT d ∧ isoformat d = s

/-- A valid serialized note record: title within bound, category one of the
seven labels, timestamps canonical ISO-8601 text. -/
def validNoteDict (d : NoteDict) : Prop :=
  d.title.length ≤ 50 ∧ (categoryOfLabel d.category).isSome = true ∧
  tsCanon d.created_at ∧ tsCanon d.updated_at

def validProjectDict (d : ProjectDict) : Prop := ∀ nd ∈ d.notes, validNoteDict nd

/-- The notes the program can hold, with the clock model made explicit:
a note is constructed at some clock instant, updated at instants no
earlier than its last `updated_at` (the wall clock does not run
backwards), or deserialized from a record whose timestamps already
satisfy `created_at <= updated_at`. -/
inductive NoteEvolves : NoteV → Prop where
  | constructed (title : String) (category : NoteCategory) (content : String)
      (now : DT) : NoteEvolves (mkNote title category content now)
  | updated {n : NoteV} (title : Option String) (category : Option NoteCategory)
      (content : Option String) (now : DT) :
      NoteEvolves n → dtLe n.updated_at now →
      NoteEvolves (n.update title category content now)
  | loaded {n : NoteV} (d : NoteDict) :
      NoteV.from_dict d = .ok n → dtLe n.created_at n.updated_at →
      NoteEvolves n

/-- The notes the program can hold, with no assumption at all on clock
values or deserialized inputs. -/
inductive NoteReachable : NoteV → Prop where
  | constructed (title : String) (category : NoteCategory) (content : String)
      (now : DT) : NoteReachable (mkNote title category content now)
  | updated {n : NoteV} (title : Option String) (category : Option NoteCategory)
      (content : Option String) (now : DT) :
      NoteReachable n → NoteReachable (n.update title category content now)
  | loaded {n : NoteV} (d : NoteDict) :
      NoteV.from_dict d = .ok n → NoteReachable n

def cDT1 : DT := ⟨2025, 1, 15, 10, 30, 0, 123456⟩

def cDT2 : DT := ⟨2025, 1, 15, 10, 30, 5, 0⟩

def cNote : NoteV := ⟨"Groceries", .home, "milk, eggs", cDT1, cDT1⟩

def cNote2 : NoteV := ⟨"Bills", .finance, "", cDT1, cDT2⟩

def cProj : ProjectV := ⟨[cNote]⟩

def cProj2 : ProjectV := ⟨[cNote, cNote2]⟩

def cNoteDict : NoteDict :=
  ⟨"Заметка", "Финансы", "text", "2025-01-15T10:30:00.123456", "2025-01-15T10:30:05"⟩

def cProjDict : ProjectDict := ⟨[cNoteDict]⟩

def longTitle : String := "0123456789012345678901234567890123456789012345678901234567890123"

/-- A record whose `updated_at` lies strictly before its `created_at`. -/
def c2dict : NoteDict := ⟨"t", "Разное", "", "0002-01-01T00:00:00", "0001-01-01T00:00:00"⟩

/-- The note `Note.from_dict` builds from `c2dict`. -/
def c2note : NoteV := ⟨"t", .misc, "", ⟨2, 1, 1, 0, 0, 0, 0⟩, ⟨1, 1, 1, 0, 0, 0, 0⟩⟩

/-- A record with a category label outside the enumerated set. -/
def c6dict : NoteDict := ⟨"t", "Food", "", "0001-01-01T00:00:00", "0001-01-01T00:00:00"⟩

def c6pdict : ProjectDict := ⟨[c6dict]⟩

/-! ## Theorems -/

theorem dtLe_refl (a : DT) : dtLe a a := Nat.le_refl _

theorem dtLe_trans {a b c : DT} (h1 : dtLe a b) (h2 : dtLe b c) : dtLe a c :=
  Nat.le_trans h1 h2

theorem digit_ok : ∀ d < 10, isDig (digitChar d) = true ∧ digitVal (digitChar d) = d := by
  decide

theorem parse2_pad2 (n : Nat) (h : n < 100) (r : List Char) :
    parse2 (pad2 n ++ r) = some (n, r) := by
  have h1 := digit_ok (n / 10) (by omega)
  have h2 := digit_ok (n % 10) (by omega)
  simp [pad2, parse2, h1.1, h2.1, h1.2, h2.2]
  omega

theorem parse4_pad4 (n : Nat) (h : n < 10000) (r : List Char) :
    parse4 (pad4 n ++ r) = some (n, r) := by
  have h1 := digit_ok (n / 1000) (by omega)
  have h2 := digit_ok (n / 100 % 10) (by omega)
  have h3 := digit_ok (n / 10 % 10) (by omega)
  have h4 := digit_ok (n % 10) (by omega)
  simp [pad4, parse4, h1.1, h2.1, h3.1, h4.1, h1.2, h2.2, h3.2, h4.2]
  omega

theorem parse6_pad6 (n : Nat) (h : n < 1000000) (r : List Char) :
    parse6 (pad6 n ++ r) = some (n, r) := by
  have h1 := digit_ok (n / 100000) (by omega)
  have h2 := digit_ok (n / 10000 % 10) (by omega)
  have h3 := digit_ok (n / 1000 % 10) (by omega)
  have h4 := digit_ok (n / 100 % 10) (by omega)
  have h5 := digit_ok (n / 10 % 10) (by omega)
  have h6 := digit_ok (n % 10) (by omega)
  simp [pad6, parse6, h1.1, h2.1, h3.1, h4.1, h5.1, h6.1,
        h1.2, h2.2, h3.2, h4.2, h5.2, h6.2]
  omega

theorem expectC_cons (c : Char) (r : List Char) : expectC c (c :: r) = some r := by
  simp [expectC]

theorem parseISO_isoChars (d : DT) (h : validDT d) : parseISO (isoChars d) = some d := by
  obtain ⟨hy1, hy2, hm1, hm2, hd1, hd2, hh, hmi, hs, hus⟩ := h
  rw [isoChars, parseISO]
  rw [parse4_pad4 d.year (by omega)]
  simp only [Option.some_bind]
  rw [expectC_cons]
  simp only [Option.some_bind]
  rw [parse2_pad2 d.month (by omega)]
  simp only [Option.some_bind]
  rw [expectC_cons]
  simp only [Option.some_bind]
  rw [parse2_pad2 d.day (by omega)]
  simp only [Option.some_bind]
  rw [expectC_cons]
  simp only [Option.some_bind]
  rw [parse2_pad2 d.hour (by omega)]
  simp only [Option.some_bind]
  rw [expectC_cons]
  simp only [Option.some_bind]
  rw [parse2_pad2 d.minute (by omega)]
  simp only [Option.some_bind]
  rw [expectC_cons]
  simp only [Option.some_bind]
  by_cases hz : d.microsecond = 0
  · rw [if_pos hz, parse2_pad2 d.second (by omega)]
    simp only [Option.some_bind]
    rw [show parseFrac [] = some 0 from rfl]
    simp only [Option.some_bind]
    rw [if_pos (by exact ⟨hy1, hy2, hm1, hm2, hd1, hd2, hh, hmi, hs, by simp⟩)]
    simp [← hz]
  · rw [if_neg hz, parse2_pad2 d.second (by omega)]
    simp only [Option.some_bind]
    have : parseFrac ('.' :: pad6 d.microsecond) = some d.microsecond := by
      have := parse6_pad6 d.microsecond (by omega) []
      rw [List.append_nil] at this
      simp [parseFrac, this]
    rw [this]
    simp only [Option.some_bind]
    rw [if_pos (by exact ⟨hy1, hy2, hm1, hm2, hd1, hd2, hh, hmi, hs, hus⟩)]

theorem fromisoformat_isoformat (d : DT) (h : validDT d) :
    fromisoformat (isoformat d) = some d := by
  rw [isoformat, fromisoformat]
  exact parseISO_isoChars d h

theorem categoryOfLabel_value (c : NoteCategory) : categoryOfLabel c.value = some c := by
  cases c <;> decide

theorem value_categoryOfLabel {s : String} {c : NoteCategory}
    (h : categoryOfLabel s = some c) : c.value = s := by
  unfold categoryOfLabel at h
  split at h
  · cases h; simp_all [NoteCategory.value]
  · split at h
    · cases h; simp_all [NoteCategory.value]
    · split at h
      · cases h; simp_all [NoteCategory.value]
      · split at h
        · cases h; simp_all [NoteCategory.value]
        · split at h
          · cases h; simp_all [NoteCategory.value]
          · split at h
            · cases h; simp_all [NoteCategory.value]
            · split at h
              · cases h; simp_all [NoteCategory.value]
              · cases h

theorem categoryOfLabel_eq_none {s : String}
    (h : s ∉ ["Работа", "Дом", "Здоровье и Спорт", "Люди",
              "Документы", "Финансы", "Разное"]) :
    categoryOfLabel s = none := by
  simp only [List.mem_cons, List.not_mem_nil, or_false, not_or] at h
  obtain ⟨h1, h2, h3, h4, h5, h6, h7⟩ := h
  simp [categoryOfLabel, h1, h2, h3, h4, h5, h6, h7]

theorem pytake_length_le (s : String) (n : Nat) : (pytake s n).length ≤ n := by
  show (s.data.take n).length ≤ n
  simp [List.length_take]

theorem pytake_eq_self {s : String} {n : Nat} (h : s.length ≤ n) : pytake s n = s := by
  cases s with
  | mk data =>
    show String.mk (data.take n) = String.mk data
    rw [List.take_of_length_le h]

theorem note_from_to (n : NoteV) (h : validNote n) :
    NoteV.from_dict n.to_dict = .ok n := by
  obtain ⟨ht, hc, hu⟩ := h
  rw [NoteV.from_dict, NoteV.to_dict]
  simp only [categoryOfLabel_value, fromisoformat_isoformat _ hc, fromisoformat_isoformat _ hu]
  rw [mkNote, pytake_eq_self ht]

theorem note_to_from (d : NoteDict) (h : validNoteDict d) :
    (NoteV.from_dict d).map NoteV.to_dict = .ok d := by
  obtain ⟨ht, hc, ⟨cd, hcd, hcds⟩, ⟨ud, hud, huds⟩⟩ := h
  rw [Option.isSome_iff_exists] at hc
  obtain ⟨cat, hcat⟩ := hc
  rw [NoteV.from_dict, hcat, ← hcds, ← huds,
      fromisoformat_isoformat _ hcd, fromisoformat_isoformat _ hud]
  simp only [Except.map]
  rw [NoteV.to_dict, mkNote]
  cases d with
  | mk t c co cr up =>
    simp_all only []
    rw [pytake_eq_self ht, value_categoryOfLabel hcat]

theorem mapExcept_from_to (ns : List NoteV) (h : ∀ n ∈ ns, validNote n) :
    mapExcept NoteV.from_dict (ns.map NoteV.to_dict) = .ok ns := by
  induction ns with
  | nil => rfl
  | cons a l ih =>
    rw [List.map_cons, mapExcept, note_from_to a (h a (by simp)),
        ih (fun n hn => h n (by simp [hn]))]

theorem project_from_to (p : ProjectV) (h : validProject p) :
    ProjectV.from_dict p.to_dict = .ok p := by
  rw [ProjectV.from_dict, ProjectV.to_dict]
  rw [mapExcept_from_to p.notes h]

theorem mapExcept_to_from (ds : List NoteDict) (h : ∀ nd ∈ ds, validNoteDict nd) :
    ∃ ns, mapExcept NoteV.from_dict ds = .ok ns ∧ ns.map NoteV.to_dict = ds := by
  induction ds with
  | nil => exact ⟨[], rfl, rfl⟩
  | cons a l ih =>
    have ha := note_to_from a (h a (by simp))
    obtain ⟨n, hn, hnd⟩ : ∃ n, NoteV.from_dict a = .ok n ∧ n.to_dict = a := by
      cases hfa : NoteV.from_dict a with
      | error e => rw [hfa] at ha; cases ha
      | ok n => rw [hfa] at ha; exact ⟨n, rfl, by cases ha; rfl⟩
    obtain ⟨ns, hns, hnsd⟩ := ih (fun nd hnd => h nd (by simp [hnd]))
    exact ⟨n :: ns, by rw [mapExcept, hn, hns], by rw [List.map_cons, hnd, hnsd]⟩

theorem project_to_from (d : ProjectDict) (h : validProjectDict d) :
    (ProjectV.from_dict d).map ProjectV.to_dict = .ok d := by
  obtain ⟨ns, hns, hnsd⟩ := mapExcept_to_from d.notes h
  rw [ProjectV.from_dict, hns]
  simp only [Except.map]
  rw [ProjectV.to_dict]
  cases d with
  | mk nds => simp_all only []

/-- Field-level description of `Note.update`: title, category and content
are each replaced exactly when the corresponding argument is truthy,
`created_at` is untouched, `updated_at` becomes `now`. -/
theorem update_eq (n : NoteV) (t : Option String) (c : Option NoteCategory)
    (co : Option String) (now : DT) :
    n.update t c co now =
      { title := match t with
          | some s => if s ≠ "" then pytake s 50 else n.title
          | none => n.title
        category := match c with
          | some x => x
          | none => n.category
        content := match co with
          | some s => if s ≠ "" then s else n.content
          | none => n.content
        created_at := n.created_at
        updated_at := now } := by
  cases t <;> cases c <;> cases co <;>
    simp only [NoteV.update] <;>
    (try split) <;> (try split) <;> rfl

theorem from_dict_ok_fields {d : NoteDict} {n : NoteV}
    (h : NoteV.from_dict d = .ok n) :
    n.title = pytake d.title 50 ∧ n.content = d.content := by
  rw [NoteV.from_dict] at h
  split at h
  · cases h
  · split at h
    · cases h
    · split at h
      · cases h
      · cases h; exact ⟨rfl, rfl⟩

theorem mapExcept_error_of_mem {f : α → Except String β} {l : List α} {a : α} {e : String}
    (ha : a ∈ l) (hf : f a = .error e) : ∃ e', mapExcept f l = .error e' := by
  induction l with
  | nil => cases ha
  | cons b l ih =>
    cases hfb : f b with
    | error e2 => exact ⟨e2, by rw [mapExcept, hfb]⟩
    | ok v =>
      rcases List.mem_cons.mp ha with h | h
      · subst h; rw [hf] at hfb; cases hfb
      · obtain ⟨e', he'⟩ := ih h
        exact ⟨e', by rw [mapExcept, hfb, he']⟩

theorem cNoteDict_valid : validNoteDict cNoteDict :=
  ⟨by decide, by decide, ⟨cDT1, by decide, by decide⟩, ⟨cDT2, by decide, by decide⟩⟩

/-- C1: serialization and deserialization are mutually inverse — the
category label map round-trips for every variant, timestamps round-trip
through their ISO-8601 text form, deserializing a serialized valid Note
or Project yields an equal value, and serializing a deserialized valid
record yields the record back. -/
theorem c1_serialization_roundtrip :
    (∀ c : NoteCategory, categoryOfLabel c.value = some c) ∧
    (∀ d : DT, validDT d → fromisoformat (isoformat d) = some d) ∧
    (∀ n : NoteV, validNote n → NoteV.from_dict n.to_dict = .ok n) ∧
    (∀ p : ProjectV, validProject p → ProjectV.from_dict p.to_dict = .ok p) ∧
    (∀ d : NoteDict, validNoteDict d → (NoteV.from_dict d).map NoteV.to_dict = .ok d) ∧
    (∀ d : ProjectDict, validProjectDict d →
      (ProjectV.from_dict d).map ProjectV.to_dict = .ok d) :=
  ⟨categoryOfLabel_value, fromisoformat_isoformat, note_from_to,
   project_from_to, note_to_from, project_to_from⟩

theorem c1_serialization_roundtrip_witness :
    categoryOfLabel (NoteCategory.work).value = some NoteCategory.work ∧
    fromisoformat (isoformat cDT1) = some cDT1 ∧
    NoteV.from_dict cNote.to_dict = .ok cNote ∧
    ProjectV.from_dict cProj2.to_dict = .ok cProj2 ∧
    (NoteV.from_dict cNoteDict).map NoteV.to_dict = .ok cNoteDict ∧
    (ProjectV.from_dict cProjDict).map ProjectV.to_dict = .ok cProjDict :=
  ⟨c1_serialization_roundtrip.1 .work,
   c1_serialization_roundtrip.2.1 cDT1 (by decide),
   c1_serialization_roundtrip.2.2.1 cNote (by decide),
   c1_serialization_roundtrip.2.2.2.1 cProj2 (by decide),
   c1_serialization_roundtrip.2.2.2.2.1 cNoteDict cNoteDict_valid,
   c1_serialization_roundtrip.2.2.2.2.2 cProjDict
     (fun nd hnd => by rw [List.mem_singleton.mp hnd]; exact cNoteDict_valid)⟩

/-- C2 (as stated, refuted): `Note.from_dict` copies both timestamps from
the input verbatim without any check, so deserializing a record whose
`updated_at` precedes its `created_at` yields a Note violating
`updated_at >= created_at`. -/
theorem c2_invariant_counterexample :
    NoteV.from_dict c2dict = .ok c2note ∧
    ¬ dtLe c2note.created_at c2note.updated_at :=
  ⟨rfl, by decide⟩

/-- C2 (amended): `updated_at >= created_at` holds for every Note reachable
through construction and any sequence of updates under a non-decreasing
clock, and through deserialization of records whose timestamps already
satisfy it; deserialization itself performs no validation. -/
theorem c2_invariant_amended (n : NoteV) (h : NoteEvolves n) :
    dtLe n.created_at n.updated_at := by
  induction h with
  | constructed t c co now => exact dtLe_refl now
  | updated t c co now hn hle ih =>
    rw [update_eq]
    exact dtLe_trans ih hle
  | loaded d hok hle => exact hle

theorem c2_invariant_amended_witness :
    dtLe (mkNote "Groceries" .home "milk, eggs" cDT1).created_at
         (mkNote "Groceries" .home "milk, eggs" cDT1).updated_at :=
  c2_invariant_amended _ (NoteEvolves.constructed "Groceries" .home "milk, eggs" cDT1)

/-- C3: construction stores exactly the first 50 characters of the title —
over-length titles are silently cut to their first 50 characters (length
exactly 50), titles of at most 50 characters are stored unchanged. -/
theorem c3_title_truncation (t : String) (c : NoteCategory) (co : String) (now : DT) :
    (mkNote t c co now).title.data = t.data.take 50 ∧
    (50 < t.length → (mkNote t c co now).title.length = 50) ∧
    (t.length ≤ 50 → (mkNote t c co now).title = t) := by
  refine ⟨rfl, fun h => ?_, fun h => pytake_eq_self h⟩
  show (t.data.take 50).length = 50
  rw [List.length_take]
  exact Nat.min_eq_left (by exact Nat.le_of_lt h)

theorem c3_title_truncation_witness :
    (mkNote longTitle .misc "" cDT1).title.data = longTitle.data.take 50 ∧
    (mkNote longTitle .misc "" cDT1).title.length = 50 ∧
    (mkNote "Groceries" .home "" cDT1).title = "Groceries" :=
  ⟨(c3_title_truncation longTitle .misc "" cDT1).1,
   (c3_title_truncation longTitle .misc "" cDT1).2.1 (by decide),
   (c3_title_truncation "Groceries" .home "" cDT1).2.2 (by decide)⟩

/-- C4: `remove_note_by_index` with an index outside `0 <= index < length`
is a no-op — the guard fails, nothing is raised (the embedding is a total
function) and the project, hence its notes sequence, is returned
unchanged. -/
theorem c4_remove_out_of_range (p : ProjectV) (i : Int)
    (h : ¬ (0 ≤ i ∧ i < (p.notes.length : Int))) :
    p.remove_note_by_index i = p := by
  rw [ProjectV.remove_note_by_index, if_neg h]

theorem c4_remove_out_of_range_witness :
    cProj.remove_note_by_index (-1) = cProj ∧
    cProj.remove_note_by_index 5 = cProj :=
  ⟨c4_remove_out_of_range cProj (-1) (by decide),
   c4_remove_out_of_range cProj 5 (by decide)⟩

/-- C5: `load_project` returns a fresh empty Project (zero notes) and no
error when the file does not exist; when it exists it propagates a parse
failure of `json.load` and otherwise reconstructs the Project through
`Project.from_dict`, propagating its validation errors. -/
theorem c5_load_project :
    load_project none = .ok ProjectV.empty ∧
    ProjectV.empty.notes.length = 0 ∧
    (∀ e, load_project (some (.error e)) = .error e) ∧
    (∀ d, load_project (some (.ok d)) = ProjectV.from_dict d) :=
  ⟨rfl, rfl, fun _ => rfl, fun _ => rfl⟩

/-- C6: a record whose category label matches none of the seven known
labels makes `Note.from_dict` fail with the `ValueError` of the enum
lookup, and a `Project.from_dict` whose input contains such a record
fails as well. -/
theorem c6_unknown_category (d : NoteDict)
    (h : d.category ∉ ["Работа", "Дом", "Здоровье и Спорт", "Люди",
                       "Документы", "Финансы", "Разное"]) :
    NoteV.from_dict d = .error (d.category ++ " is not a valid NoteCategory") ∧
    ∀ pd : ProjectDict, d ∈ pd.notes → (ProjectV.from_dict pd).isOk = false := by
  have hn := categoryOfLabel_eq_none h
  have hd : NoteV.from_dict d = .error (d.category ++ " is not a valid NoteCategory") := by
    rw [NoteV.from_dict, hn]
  refine ⟨hd, fun pd hmem => ?_⟩
  obtain ⟨e', he'⟩ := mapExcept_error_of_mem hmem hd
  rw [ProjectV.from_dict, he']
  rfl

theorem c6_unknown_category_witness :
    NoteV.from_dict c6dict = .error (c6dict.category ++ " is not a valid NoteCategory") ∧
    (ProjectV.from_dict c6pdict).isOk = false :=
  ⟨(c6_unknown_category c6dict (by decide)).1,
   (c6_unknown_category c6dict (by decide)).2 c6pdict (by decide)⟩

/-- C7: `update` with no field supplied changes nothing but `updated_at`,
which becomes the current clock value; under a clock that has not moved
backwards since the last update, `new_updated_at >= old_updated_at`. -/
theorem c7_update_no_fields (n : NoteV) (now : DT) (h : dtLe n.updated_at now) :
    n.update none none none now = { n with updated_at := now } ∧
    dtLe n.updated_at (n.update none none none now).updated_at := by
  have he : n.update none none none now = { n with updated_at := now } := by
    rw [update_eq]
  exact ⟨he, by rw [he]; exact h⟩

theorem c7_update_no_fields_witness :
    cNote.update none none none cDT2 = { cNote with updated_at := cDT2 } ∧
    dtLe cNote.updated_at (cNote.update none none none cDT2).updated_at :=
  c7_update_no_fields cNote cDT2 (by decide)

/-- C8: no `update` call, whatever its arguments, changes `created_at`. -/
theorem c8_created_at_immutable (n : NoteV) (t : Option String)
    (c : Option NoteCategory) (co : Option String) (now : DT) :
    (n.update t c co now).created_at = n.created_at := by
  rw [update_eq]

/-- C9: every note reachable through the public operations — construction,
any update sequence, deserialization of any record `from_dict` accepts —
has a title of at most 50 characters. -/
theorem c9_title_length_invariant (n : NoteV) (h : NoteReachable n) :
    n.title.length ≤ 50 := by
  induction h with
  | constructed t c co now => exact pytake_length_le t 50
  | updated t c co now hn ih =>
    rw [update_eq]
    cases t with
    | none => exact ih
    | some s =>
      dsimp only
      split
      · exact pytake_length_le s 50
      · exact ih
  | loaded d hok => rw [(from_dict_ok_fields hok).1]; exact pytake_length_le _ 50

theorem c9_title_length_invariant_witness :
    (mkNote longTitle .work "" cDT1).title.length ≤ 50 :=
  c9_title_length_invariant _ (NoteReachable.constructed longTitle .work "" cDT1)

/-- C10: `remove_note_by_index` with an in-range index removes exactly the
note at that index — the result is the notes before the index followed by
the notes after it, and the length drops by one. -/
theorem c10_remove_in_range (p : ProjectV) (i : Int) (h0 : 0 ≤ i)
    (h1 : i < (p.notes.length : Int)) :
    (p.remove_note_by_index i).notes =
      p.notes.take i.toNat ++ p.notes.drop (i.toNat + 1) ∧
    (p.remove_note_by_index i).notes.length = p.notes.length - 1 := by
  have hlt : i.toNat < p.notes.length := by omega
  rw [ProjectV.remove_note_by_index, if_pos ⟨h0, h1⟩]
  refine ⟨List.eraseIdx_eq_take_drop_succ _ _, ?_⟩
  rw [List.length_eraseIdx]
  simp [hlt]

theorem c10_remove_in_range_witness :
    (cProj2.remove_note_by_index 0).notes =
      cProj2.notes.take (Int.toNat 0) ++ cProj2.notes.drop (Int.toNat 0 + 1) ∧
    (cProj2.remove_note_by_index 0).notes.length = cProj2.notes.length - 1 :=
  c10_remove_in_range cProj2 0 (by decide) (by decide)

end NoteApp
